import Mathlib

/-!
Shallow embedding of the CFileSet rowset read path declared in
src/tablet/cfile_set.h.  Each column file reader is modelled by the
decoded value sequence of its column (a list of natural numbers); the
key column is column 0 of the set, per the schema contract.  Ordinal
arithmetic on the inclusive scan bounds is carried out in the integers
so that the empty range (lower bound above upper bound), which the
specification declares legal, is representable without unsigned wrap.
The implementation file cfile_set.cc is not among the sources; every
operation whose body is missing from the header is modelled from the
spec and says so in its doc comment.
-/

namespace CFileSetModel

/-- Error kinds of the read path, following the error handling design:
NotOpened, Corruption, IOFailure, NotFound, InvalidState. -/
inductive RSError where
  | notOpened
  | corruption
  | ioFailure
  | notFound
  | invalidState
  deriving Repr, DecidableEq, Inhabited

/-- Set of column files making up the base data for a single rowset
(class CFileSet).  The readers field models readers_, one decoded value
sequence per column; it is empty before the set is opened.  The
bloomReader field models bloom_reader_, the optional existence filter,
by its probe function: false means definitely absent, true means maybe
present. -/
structure CFileSet where
  readers : List (List Nat)
  bloomReader : Option (Nat → Bool)
  deriving Inhabited

/-- The key column of the set: column 0 of the schema. -/
def CFileSet.keys (cs : CFileSet) : List Nat := cs.readers.getD 0 []

/-- The shared row count of all columns (the data model invariant says
every opened column reports this same count). -/
def CFileSet.rowCount (cs : CFileSet) : Nat := (cs.readers.getD 0 []).length

/-- Modelled from the spec: CountRows (its body in cfile_set.cc is
missing).  Returns the shared row count, and fails with NotOpened when
the set has not been opened (no reader exists yet). -/
def CFileSet.countRows (cs : CFileSet) : Except RSError Nat :=
  match cs.readers with
  | [] => Except.error RSError.notOpened
  | r :: _ => Except.ok r.length

/-- First ordinal at or after position i whose key equals the probe. -/
def findRowFrom (k : Nat) : List Nat → Nat → Option Nat
  | [], _ => none
  | x :: xs, i => if x = k then some i else findRowFrom k xs (i + 1)

/-- Modelled from the spec: FindRow (its body in cfile_set.cc is
missing) binary searches the key column for the first row whose key
equals the probe; none models the NotFound result, a normal negative.
The binary search is modelled by its specified result, the first
matching ordinal. -/
def CFileSet.findRow (cs : CFileSet) (k : Nat) : Option Nat :=
  findRowFrom k cs.keys 0

/-- Modelled from the spec: CheckRowPresent (its body in cfile_set.cc
is missing).  When an existence filter is loaded the probe is tested
against it first and a negative answer is authoritative; a positive
answer, or an absent filter, falls through to FindRow for the
definitive answer. -/
def CFileSet.checkRowPresent (cs : CFileSet) (k : Nat) : Bool :=
  match cs.bloomReader with
  | some f => if f k then (cs.findRow k).isSome else false
  | none => (cs.findRow k).isSome

/-- Contract of the existence filter collaborator: it never answers
definitely absent for a key that is actually present in the key
column. -/
def CFileSet.bloomSound (cs : CFileSet) : Prop :=
  ∀ f, cs.bloomReader = some f → ∀ k, k ∈ cs.keys → f k = true

/-- Column wise iterator over a CFileSet (class CFileSet::Iterator).
Field names follow the header: base_data, projection_mapping, initted,
cur_idx, prepared_count, row_count, lower_bound_idx, upper_bound_idx,
cols_prepared.  The per column CFileIterator cursors (col_iters_) are
modelled by staged, the values read for the current batch, and
ioReads, the cumulative read volume of each projected column in rows
(the IOStatistics counters). -/
structure Iterator where
  base_data : CFileSet
  projection_mapping : List Nat
  initted : Bool
  cur_idx : Nat
  prepared_count : Nat
  row_count : Nat
  lower_bound_idx : Nat
  upper_bound_idx : Int
  cols_prepared : List Bool
  staged : List (List Nat)
  ioReads : List Nat

/-- The iterator constructor body (cfile_set.h lines 117 to 125) run
after CountRows succeeded: initted false, prepared_count 0, row_count
cached from the base data.  The remaining cursor fields carry their
pre-Init defaults. -/
def CFileSet.mkIter (cs : CFileSet) (pm : List Nat) : Iterator :=
  { base_data := cs
    projection_mapping := pm
    initted := false
    cur_idx := 0
    prepared_count := 0
    row_count := cs.rowCount
    lower_bound_idx := 0
    upper_bound_idx := (cs.rowCount : Int) - 1
    cols_prepared := []
    staged := []
    ioReads := List.replicate pm.length 0 }

/-- NewIterator: manufactures a not yet initialized iterator sharing
the base data.  The constructor fetches CountRows under CHECK_OK
(cfile_set.h line 124); the abort on failure is modelled as none. -/
def CFileSet.newIterator (cs : CFileSet) (pm : List Nat) : Option Iterator :=
  match cs.countRows with
  | Except.ok _ => some (cs.mkIter pm)
  | Except.error _ => none

/-- Modelled from the spec: PushdownRangeScanPredicate (its body in
cfile_set.cc is missing) converts a key range predicate with inclusive
value bounds lo and hi, via binary search on the sorted key column,
into inclusive ordinal bounds: the first ordinal whose key is at least
lo, and the last ordinal whose key is at most hi (one below the count
of keys at most hi, in the integers so an empty range is lower above
upper). -/
def pushdownBounds (keys : List Nat) (lo hi : Nat) : Nat × Int :=
  (keys.countP (fun k => decide (k < lo)),
   (keys.countP (fun k => decide (k ≤ hi)) : Int) - 1)

/-- Modelled from the spec: Init (its body in cfile_set.cc is missing)
sets the ordinal bounds to the full row range, narrows them by
pushdown when the scan spec carries a key range predicate (modelled as
an optional inclusive value range), seeks to the lower bound and
clears the per column prepared state.  The per column cursors come
into being here, with zero read volume. -/
def Iterator.init (it : Iterator) (spec : Option (Nat × Nat)) : Iterator :=
  match spec with
  | none =>
    { it with
        initted := true
        lower_bound_idx := 0
        upper_bound_idx := (it.row_count : Int) - 1
        cur_idx := 0
        prepared_count := 0
        cols_prepared := List.replicate it.projection_mapping.length false
        staged := List.replicate it.projection_mapping.length []
        ioReads := List.replicate it.projection_mapping.length 0 }
  | some (lo, hi) =>
    { it with
        initted := true
        lower_bound_idx := (pushdownBounds it.base_data.keys lo hi).1
        upper_bound_idx := (pushdownBounds it.base_data.keys lo hi).2
        cur_idx := (pushdownBounds it.base_data.keys lo hi).1
        prepared_count := 0
        cols_prepared := List.replicate it.projection_mapping.length false
        staged := List.replicate it.projection_mapping.length []
        ioReads := List.replicate it.projection_mapping.length 0 }

/-- The underlying value sequence of projected column c. -/
def Iterator.colData (it : Iterator) (c : Nat) : List Nat :=
  it.base_data.readers.getD (it.projection_mapping.getD c 0) []

/-- Modelled from the spec: PrepareBatch (its body in cfile_set.cc is
missing) clamps the requested row count to the rows remaining up to
the inclusive upper bound and records it as prepared_count; it reads
no column data. -/
def Iterator.prepareBatch (it : Iterator) (n : Nat) : Nat × Iterator :=
  (min n (it.upper_bound_idx + 1 - (it.cur_idx : Int)).toNat,
   { it with
       prepared_count := min n (it.upper_bound_idx + 1 - (it.cur_idx : Int)).toNat })

/-- Modelled from the spec: PrepareColumn (its body in cfile_set.cc is
missing) is idempotent per batch.  When the prepared flag of the
column is clear it seeks the column cursor to cur_idx, reads
prepared_count values into the staging area, accounts the read volume
and sets the flag; otherwise it does nothing. -/
def Iterator.prepareColumn (it : Iterator) (c : Nat) : Iterator :=
  if it.cols_prepared.getD c false then it
  else
    { it with
        staged := it.staged.set c
          (((it.colData c).drop it.cur_idx).take it.prepared_count)
        ioReads := it.ioReads.set c (it.ioReads.getD c 0 + it.prepared_count)
        cols_prepared := it.cols_prepared.set c true }

/-- Modelled from the spec: MaterializeColumn (its body in
cfile_set.cc is missing) ensures the column is prepared and copies the
staged values out to the caller. -/
def Iterator.materializeColumn (it : Iterator) (c : Nat) : List Nat × Iterator :=
  ((it.prepareColumn c).staged.getD c [], it.prepareColumn c)

/-- Modelled from the spec: FinishBatch (its body in cfile_set.cc is
missing) advances cur_idx by prepared_count and clears the per batch
prepared state (Unprepare). -/
def Iterator.finishBatch (it : Iterator) : Iterator :=
  { it with
      cur_idx := it.cur_idx + it.prepared_count
      prepared_count := 0
      cols_prepared := it.cols_prepared.map (fun _ => false) }

/-- HasNext, the body inlined in cfile_set.h lines 97 to 100: the
cursor is at or below the inclusive upper bound. -/
def Iterator.hasNext (it : Iterator) : Bool :=
  decide ((it.cur_idx : Int) ≤ it.upper_bound_idx)

/-- GetIOStatistics: collects the per column read volume counters of
the underlying cursors; purely observational. -/
def Iterator.getIOStatistics (it : Iterator) : List Nat := it.ioReads

/-- HasNext behind its DCHECK(initted_) guard (cfile_set.h line 98):
calling it before Init is a programming error that fails fast,
modelled as none. -/
def Iterator.hasNextChecked (it : Iterator) : Option Bool :=
  if it.initted then some it.hasNext else none

/-- PrepareBatch behind the initted guard demanded by the protocol:
calling it before Init fails fast, modelled as none. -/
def Iterator.prepareBatchChecked (it : Iterator) (n : Nat) :
    Option (Nat × Iterator) :=
  if it.initted then some (it.prepareBatch n) else none

/-- MaterializeColumn behind the initted guard demanded by the
protocol: calling it before Init fails fast, modelled as none. -/
def Iterator.materializeColumnChecked (it : Iterator) (c : Nat) :
    Option (List Nat × Iterator) :=
  if it.initted then some (it.materializeColumn c) else none

/-- FinishBatch behind the initted guard demanded by the protocol:
calling it before Init fails fast, modelled as none. -/
def Iterator.finishBatchChecked (it : Iterator) : Option Iterator :=
  if it.initted then some it.finishBatch else none

/-- One round of the batch protocol followed until PrepareBatch
returns 0: prepare at most b rows, materialize column c, finish the
batch, recurse.  Fuel bounds the recursion depth. -/
def Iterator.scanAux : Nat → Iterator → Nat → Nat → List Nat
  | 0, _, _, _ => []
  | fuel + 1, it, c, b =>
    let p := it.prepareBatch b
    if p.1 = 0 then []
    else
      (p.2.materializeColumn c).1 ++
        Iterator.scanAux fuel (p.2.materializeColumn c).2.finishBatch c b

/-- A complete scan of column c in batches of at most b rows: drive
the batch protocol until PrepareBatch returns 0 and concatenate the
materialized batches.  One more unit of fuel than the cached row count
always suffices. -/
def Iterator.runScan (it : Iterator) (c b : Nat) : List Nat :=
  Iterator.scanAux (it.row_count + 1) it c b

/-- The operations a caller may issue between Init and exhaustion. -/
inductive ScanOp where
  | prepare (n : Nat)
  | materialize (c : Nat)
  | finish
  deriving Repr, DecidableEq

/-- The state transition of one protocol operation. -/
def Iterator.stepOp (it : Iterator) : ScanOp → Iterator
  | ScanOp.prepare n => (it.prepareBatch n).2
  | ScanOp.materialize c => (it.materializeColumn c).2
  | ScanOp.finish => it.finishBatch

/-- Run an arbitrary sequence of protocol operations. -/
def Iterator.runOps (it : Iterator) : List ScanOp → Iterator
  | [] => it
  | op :: ops => (it.stepOp op).runOps ops

/-- Cursor invariant of an initialized iterator: the lower bound is at
or below the cursor, and the cursor plus the rows staged for the
current batch stays at or below one past the inclusive upper bound. -/
def Iterator.Inv (it : Iterator) : Prop :=
  (it.lower_bound_idx : Int) ≤ (it.cur_idx : Int) ∧
    (it.cur_idx : Int) + (it.prepared_count : Int) ≤ it.upper_bound_idx + 1

/-- A small opened rowset used to witness the theorems: four rows, key
column 0 sorted, one extra column. -/
def sampleSet : CFileSet :=
  { readers := [[10, 20, 30, 40], [1, 2, 3, 4]], bloomReader := none }

/-- A rowset that was never opened: no reader exists. -/
def emptySet : CFileSet := { readers := [], bloomReader := none }

/-- An opened rowset with a loaded existence filter that exactly
matches its two keys. -/
def bloomSet : CFileSet :=
  { readers := [[5, 7]], bloomReader := some (fun k => decide (k = 5 ∨ k = 7)) }

/-- A fully initialized full range iterator over sampleSet projecting
both columns. -/
def sampleIter : Iterator := (sampleSet.mkIter [0, 1]).init none

theorem getD_set_self {α : Type} (l : List α) (i : Nat) (v d : α)
    (h : i < l.length) : (l.set i v).getD i d = v := by
  rw [List.getD_eq_getElem?_getD, List.getElem?_set_self h]
  rfl

theorem getD_set_ne {α : Type} (l : List α) (i j : Nat) (v d : α)
    (h : i ≠ j) : (l.set i v).getD j d = l.getD j d := by
  rw [List.getD_eq_getElem?_getD, List.getElem?_set_ne h,
    ← List.getD_eq_getElem?_getD]

theorem getD_replicate_self {α : Type} :
    ∀ (n i : Nat) (v : α), (List.replicate n v).getD i v = v
  | 0, 0, _ => rfl
  | 0, _ + 1, _ => rfl
  | _ + 1, 0, _ => rfl
  | n + 1, i + 1, v => getD_replicate_self n i v

theorem getD_map_false :
    ∀ (l : List Bool) (i : Nat), (l.map (fun _ => false)).getD i false = false
  | [], 0 => rfl
  | [], _ + 1 => rfl
  | _ :: _, 0 => rfl
  | _ :: l, i + 1 => getD_map_false l i

/-- The effect of one full batch round on the iterator state: prepare,
materialize column c, finish. -/
theorem batchStep (it : Iterator) (b c : Nat)
    (hflag : it.cols_prepared.getD c false = false) :
    ((it.prepareBatch b).2.materializeColumn c).2.finishBatch =
      { it with
          cur_idx := it.cur_idx + (it.prepareBatch b).1
          prepared_count := 0
          staged := it.staged.set c
            (((it.colData c).drop it.cur_idx).take (it.prepareBatch b).1)
          ioReads := it.ioReads.set c
            (it.ioReads.getD c 0 + (it.prepareBatch b).1)
          cols_prepared := (it.cols_prepared.set c true).map (fun _ => false) } := by
  rw [List.getD_eq_getElem?_getD] at hflag
  simp [Iterator.prepareBatch, Iterator.materializeColumn, Iterator.prepareColumn,
    Iterator.finishBatch, Iterator.colData, hflag]

/-- The values a batch round hands to the caller for column c. -/
theorem batchStepOut (it : Iterator) (b c : Nat)
    (hc : c < it.staged.length)
    (hflag : it.cols_prepared.getD c false = false) :
    ((it.prepareBatch b).2.materializeColumn c).1 =
      ((it.colData c).drop it.cur_idx).take (it.prepareBatch b).1 := by
  rw [List.getD_eq_getElem?_getD] at hflag
  simp [Iterator.prepareBatch, Iterator.materializeColumn, Iterator.prepareColumn,
    Iterator.colData, hflag]
  rw [← List.getD_eq_getElem?_getD]
  exact getD_set_self _ _ _ _ hc

/-- Driving the batch protocol from any reachable cursor position
yields exactly the slice of the column between the cursor and the
inclusive upper bound. -/
theorem scanAux_eq :
    ∀ (fuel : Nat) (it : Iterator) (c b : Nat), 0 < b →
    c < it.staged.length →
    it.cols_prepared.getD c false = false →
    (it.upper_bound_idx + 1 - (it.cur_idx : Int)).toNat < fuel →
    Iterator.scanAux fuel it c b =
      ((it.colData c).drop it.cur_idx).take
        (it.upper_bound_idx + 1 - (it.cur_idx : Int)).toNat := by
  intro fuel
  induction fuel with
  | zero => intro it c b _ _ _ hfuel; omega
  | succ fuel ih =>
    intro it c b hb hc hflag hfuel
    by_cases hrem : (it.upper_bound_idx + 1 - (it.cur_idx : Int)).toNat = 0
    · simp [Iterator.scanAux, Iterator.prepareBatch, hrem]
    · have hn1 : (it.prepareBatch b).1 =
          min b (it.upper_bound_idx + 1 - (it.cur_idx : Int)).toNat := rfl
      have hpos : (it.prepareBatch b).1 ≠ 0 := by rw [hn1]; omega
      rw [Iterator.scanAux, if_neg hpos, batchStepOut it b c hc hflag,
        batchStep it b c hflag]
      rw [ih _ c b hb (by simpa using hc) (by exact getD_map_false _ _)
        (by simp only [hn1] at *; omega)]
      have hcd : Iterator.colData
          { it with
              cur_idx := it.cur_idx + (it.prepareBatch b).1
              prepared_count := 0
              staged := it.staged.set c
                (((it.colData c).drop it.cur_idx).take (it.prepareBatch b).1)
              ioReads := it.ioReads.set c
                (it.ioReads.getD c 0 + (it.prepareBatch b).1)
              cols_prepared := (it.cols_prepared.set c true).map (fun _ => false) } c
          = it.colData c := rfl
      rw [hcd]
      have htn : (it.upper_bound_idx + 1 -
            ((it.cur_idx + (it.prepareBatch b).1 : Nat) : Int)).toNat =
          (it.upper_bound_idx + 1 - (it.cur_idx : Int)).toNat -
            (it.prepareBatch b).1 := by
        simp only [hn1]
        omega
      have hsum : (it.prepareBatch b).1 +
          ((it.upper_bound_idx + 1 - (it.cur_idx : Int)).toNat -
            (it.prepareBatch b).1) =
          (it.upper_bound_idx + 1 - (it.cur_idx : Int)).toNat := by
        simp only [hn1]
        omega
      rw [htn, ← List.drop_drop, ← List.take_add, hsum]

/-- On a key column sorted ascending, the ordinal slice delivered by
the pushdown bounds is exactly the row by row filter of the key range:
the slice starts at the count of keys below lo and spans up to the
count of keys at most hi. -/
theorem sorted_slice_filter (lo hi : Nat) :
    ∀ keys : List Nat, List.Pairwise (fun x y => x ≤ y) keys →
    (keys.drop (keys.countP (fun k => decide (k < lo)))).take
        (keys.countP (fun k => decide (k ≤ hi)) -
          keys.countP (fun k => decide (k < lo)))
      = keys.filter (fun k => decide (lo ≤ k) && decide (k ≤ hi)) := by
  intro keys
  induction keys with
  | nil => intro _; rfl
  | cons a ks ih =>
    intro hp
    have ha : ∀ x ∈ ks, a ≤ x := (List.pairwise_cons.mp hp).1
    have hp' : List.Pairwise (fun x y => x ≤ y) ks := (List.pairwise_cons.mp hp).2
    by_cases hlo : a < lo
    · have hla : ¬ lo ≤ a := by omega
      by_cases hhi : a ≤ hi
      · simp only [List.countP_cons, List.filter_cons, hlo, hhi, hla,
          decide_True, decide_False, if_true, Bool.false_and, Bool.and_true,
          if_false, List.drop_succ_cons, Nat.succ_sub_succ]
        exact ih hp'
      · have hB : ks.countP (fun k => decide (k ≤ hi)) = 0 := by
          refine List.countP_eq_zero.mpr ?_
          intro x hx
          have := ha x hx
          simp
          omega
        have hF : ks.filter (fun k => decide (lo ≤ k) && decide (k ≤ hi)) = [] := by
          refine List.filter_eq_nil_iff.mpr ?_
          intro x hx
          have := ha x hx
          simp
          omega
        simp [List.countP_cons, List.filter_cons, hlo, hhi, hla, hB, hF]
    · have hla : lo ≤ a := by omega
      have hA : ks.countP (fun k => decide (k < lo)) = 0 := by
        refine List.countP_eq_zero.mpr ?_
        intro x hx
        have := ha x hx
        simp
        omega
      by_cases hhi : a ≤ hi
      · have hks := ih hp'
        rw [hA] at hks
        simp only [List.drop_zero, Nat.sub_zero] at hks
        simp [List.countP_cons, List.filter_cons, hlo, hhi, hla, hA,
          List.take_succ_cons, hks]
      · have hB : ks.countP (fun k => decide (k ≤ hi)) = 0 := by
          refine List.countP_eq_zero.mpr ?_
          intro x hx
          have := ha x hx
          simp
          omega
        have hF : ks.filter (fun k => decide (lo ≤ k) && decide (k ≤ hi)) = [] := by
          refine List.filter_eq_nil_iff.mpr ?_
          intro x hx
          have := ha x hx
          simp
          omega
        simp [List.countP_cons, List.filter_cons, hlo, hhi, hla, hA, hB, hF]

/-- Claim C2: for every opened rowset and every projected column,
concatenating the rows produced by all batches of a full unpushed scan
(Init with no key range predicate, then repeated PrepareBatch,
MaterializeColumn, FinishBatch until PrepareBatch returns 0) equals
the linear sequence of the values of that column from ordinal 0 to
row_count - 1, in order, with no gaps and no duplicates.  The
hypothesis hlen is the data model invariant that every column carries
the shared row count. -/
theorem full_scan_linear (cs : CFileSet) (pm : List Nat) (c b : Nat)
    (hb : 0 < b) (hc : c < pm.length)
    (hlen : (cs.readers.getD (pm.getD c 0) []).length = cs.rowCount) :
    Iterator.runScan ((cs.mkIter pm).init none) c b
      = cs.readers.getD (pm.getD c 0) [] := by
  have h1 : c < ((cs.mkIter pm).init none).staged.length := by
    show c < (List.replicate pm.length ([] : List Nat)).length
    simpa using hc
  have h2 : ((cs.mkIter pm).init none).cols_prepared.getD c false = false :=
    getD_replicate_self pm.length c false
  have h3 : (((cs.mkIter pm).init none).upper_bound_idx + 1 -
      ((((cs.mkIter pm).init none).cur_idx : Nat) : Int)).toNat <
      ((cs.mkIter pm).init none).row_count + 1 := by
    show ((cs.rowCount : Int) - 1 + 1 - ((0 : Nat) : Int)).toNat < cs.rowCount + 1
    omega
  have h := scanAux_eq (((cs.mkIter pm).init none).row_count + 1)
    ((cs.mkIter pm).init none) c b hb h1 h2 h3
  unfold Iterator.runScan
  refine Eq.trans h ?_
  show ((cs.readers.getD (pm.getD c 0) []).drop 0).take
      (((cs.rowCount : Int) - 1 + 1 - ((0 : Nat) : Int)).toNat)
    = cs.readers.getD (pm.getD c 0) []
  have ht : ((cs.rowCount : Int) - 1 + 1 - ((0 : Nat) : Int)).toNat
      = cs.rowCount := by omega
  rw [ht, List.drop_zero, ← hlen, List.take_length]

/-- Witness for C2 on the sample rowset: the full scan of projected
column 1 in batches of three rows returns the whole column. -/
theorem full_scan_linear_witness :
    0 < 3 ∧ 1 < [0, 1].length ∧
      (sampleSet.readers.getD ([0, 1].getD 1 0) []).length = sampleSet.rowCount ∧
      Iterator.runScan ((sampleSet.mkIter [0, 1]).init none) 1 3
        = sampleSet.readers.getD ([0, 1].getD 1 0) [] :=
  ⟨by decide, by decide, by decide,
    full_scan_linear sampleSet [0, 1] 1 3 (by decide) (by decide) (by decide)⟩

/-- Claim C1: for a scan whose spec carries the key range predicate
with inclusive value bounds lo and hi, the iterator initialized with
that spec yields exactly the rows whose key falls in the range, that
is, the same rows a row by row filter of the full key column would
keep; in particular an empty intersection with the rowset yields zero
rows as a legal outcome, not an error. -/
theorem pushdown_range_scan (cs : CFileSet) (pm : List Nat) (c b lo hi : Nat)
    (hsorted : List.Pairwise (fun x y => x ≤ y) cs.keys)
    (hb : 0 < b) (hc : c < pm.length) (hkey : pm.getD c 0 = 0) :
    Iterator.runScan ((cs.mkIter pm).init (some (lo, hi))) c b
      = cs.keys.filter (fun k => decide (lo ≤ k) && decide (k ≤ hi))
    ∧ (cs.keys.filter (fun k => decide (lo ≤ k) && decide (k ≤ hi)) = [] →
        Iterator.runScan ((cs.mkIter pm).init (some (lo, hi))) c b = []) := by
  have h1 : c < ((cs.mkIter pm).init (some (lo, hi))).staged.length := by
    show c < (List.replicate pm.length ([] : List Nat)).length
    simpa using hc
  have h2 : ((cs.mkIter pm).init (some (lo, hi))).cols_prepared.getD c false
      = false := getD_replicate_self pm.length c false
  have hBle : cs.keys.countP (fun k => decide (k ≤ hi)) ≤ cs.rowCount :=
    List.countP_le_length _
  have h3 : (((cs.mkIter pm).init (some (lo, hi))).upper_bound_idx + 1 -
      ((((cs.mkIter pm).init (some (lo, hi))).cur_idx : Nat) : Int)).toNat <
      ((cs.mkIter pm).init (some (lo, hi))).row_count + 1 := by
    show (((cs.keys.countP (fun k => decide (k ≤ hi)) : Int) - 1 + 1 -
        ((cs.keys.countP (fun k => decide (k < lo)) : Nat) : Int)).toNat <
      cs.rowCount + 1)
    omega
  have h := scanAux_eq (((cs.mkIter pm).init (some (lo, hi))).row_count + 1)
    ((cs.mkIter pm).init (some (lo, hi))) c b hb h1 h2 h3
  have hmain : Iterator.runScan ((cs.mkIter pm).init (some (lo, hi))) c b
      = cs.keys.filter (fun k => decide (lo ≤ k) && decide (k ≤ hi)) := by
    unfold Iterator.runScan
    refine Eq.trans h ?_
    show ((cs.readers.getD (pm.getD c 0) []).drop
        (cs.keys.countP (fun k => decide (k < lo)))).take
        (((cs.keys.countP (fun k => decide (k ≤ hi)) : Int) - 1 + 1 -
          ((cs.keys.countP (fun k => decide (k < lo)) : Nat) : Int)).toNat)
      = cs.keys.filter (fun k => decide (lo ≤ k) && decide (k ≤ hi))
    have ht : (((cs.keys.countP (fun k => decide (k ≤ hi)) : Int) - 1 + 1 -
        ((cs.keys.countP (fun k => decide (k < lo)) : Nat) : Int)).toNat)
        = cs.keys.countP (fun k => decide (k ≤ hi)) -
            cs.keys.countP (fun k => decide (k < lo)) := by omega
    rw [hkey, ht]
    exact sorted_slice_filter lo hi cs.keys hsorted
  exact ⟨hmain, fun hnil => hmain.trans hnil⟩

/-- Witness for C1 on the sample rowset: keys 10, 20, 30, 40 and
range 15 to 35 yield exactly the keys 20 and 30. -/
theorem pushdown_range_scan_witness :
    List.Pairwise (fun x y => x ≤ y) sampleSet.keys ∧
      Iterator.runScan ((sampleSet.mkIter [0, 1]).init (some (15, 35))) 0 2
        = [20, 30] :=
  ⟨by decide,
    ((pushdown_range_scan sampleSet [0, 1] 0 2 15 35 (by decide) (by decide)
      (by decide) (by decide)).1).trans (by decide)⟩

/-- Claim C3, amended: PrepareBatch returns the requested count
clamped to the rows remaining up to the inclusive upper bound (zero
remaining when the cursor is past it); for a positive requested count
it returns 0 exactly when the iterator is exhausted; it records the
result as prepared_count and performs no column reads.  The claim as
frozen fails for requested_count = 0, where 0 is returned without the
iterator being exhausted. -/
theorem prepareBatch_contract (it : Iterator) (n : Nat) (hn : 0 < n) :
    (it.prepareBatch n).1
        = min n (it.upper_bound_idx + 1 - (it.cur_idx : Int)).toNat
    ∧ ((it.prepareBatch n).1 = 0 ↔ it.upper_bound_idx < (it.cur_idx : Int))
    ∧ (it.prepareBatch n).2.prepared_count = (it.prepareBatch n).1
    ∧ (it.prepareBatch n).2.ioReads = it.ioReads
    ∧ (it.prepareBatch n).2.staged = it.staged
    ∧ (it.prepareBatch n).2.cur_idx = it.cur_idx := by
  refine ⟨rfl, ?_, rfl, rfl, rfl, rfl⟩
  show min n (it.upper_bound_idx + 1 - (it.cur_idx : Int)).toNat = 0 ↔
    it.upper_bound_idx < (it.cur_idx : Int)
  omega

/-- Witness for the amended C3 on the freshly initialized sample
iterator. -/
theorem prepareBatch_contract_witness :
    0 < 2 ∧
      (sampleIter.prepareBatch 2).1 = min 2
        (sampleIter.upper_bound_idx + 1 - (sampleIter.cur_idx : Int)).toNat ∧
      ((sampleIter.prepareBatch 2).1 = 0 ↔
        sampleIter.upper_bound_idx < (sampleIter.cur_idx : Int)) :=
  ⟨by decide, (prepareBatch_contract sampleIter 2 (by decide)).1,
    (prepareBatch_contract sampleIter 2 (by decide)).2.1⟩

/-- Counterexample to C3 as frozen: on the freshly initialized sample
iterator a PrepareBatch request of 0 rows returns 0, yet the iterator
is not exhausted (the cursor is still at or below the upper bound and
HasNext holds). -/
theorem prepareBatch_zero_request_counterexample :
    (sampleIter.prepareBatch 0).1 = 0 ∧ sampleIter.hasNext = true ∧
      ¬ sampleIter.upper_bound_idx < (sampleIter.cur_idx : Int) := by
  refine ⟨rfl, by decide, by decide⟩

/-- Claim C4: under the cursor invariant, every operation preserves
it, the bounds inequality of the spec holds, HasNext returns true
exactly when the cursor is at or below the inclusive upper bound, and
exhaustion is exactly the cursor being past it.  Init establishes the
invariant: unconditionally for an unpushed scan, and for a pushed
range when the range is well formed (lo at most hi). -/
theorem iterator_invariant (it : Iterator) (n c : Nat) (cs : CFileSet)
    (pm : List Nat) (lo hi : Nat) (hInv : it.Inv) :
    ((it.lower_bound_idx : Int) ≤ (it.cur_idx : Int) ∧
      (it.cur_idx : Int) ≤ it.upper_bound_idx + 1)
    ∧ Iterator.Inv (it.prepareBatch n).2
    ∧ Iterator.Inv (it.materializeColumn c).2
    ∧ Iterator.Inv it.finishBatch
    ∧ (it.hasNext = true ↔ (it.cur_idx : Int) ≤ it.upper_bound_idx)
    ∧ (it.hasNext = false ↔ it.upper_bound_idx < (it.cur_idx : Int))
    ∧ Iterator.Inv ((cs.mkIter pm).init none)
    ∧ (lo ≤ hi → Iterator.Inv ((cs.mkIter pm).init (some (lo, hi)))) := by
  obtain ⟨hl, hu⟩ := hInv
  refine ⟨⟨hl, by omega⟩, ⟨hl, ?_⟩, ?_, ⟨?_, ?_⟩, ?_, ?_, ⟨?_, ?_⟩, ?_⟩
  · show (it.cur_idx : Int) +
        (min n (it.upper_bound_idx + 1 - (it.cur_idx : Int)).toNat : Nat) ≤
      it.upper_bound_idx + 1
    omega
  · show Iterator.Inv (it.prepareColumn c)
    unfold Iterator.prepareColumn
    split
    · exact ⟨hl, hu⟩
    · exact ⟨hl, hu⟩
  · show (it.lower_bound_idx : Int) ≤ ((it.cur_idx + it.prepared_count : Nat) : Int)
    omega
  · show ((it.cur_idx + it.prepared_count : Nat) : Int) + ((0 : Nat) : Int) ≤
      it.upper_bound_idx + 1
    omega
  · show (decide ((it.cur_idx : Int) ≤ it.upper_bound_idx) = true ↔ _)
    simp
  · show (decide ((it.cur_idx : Int) ≤ it.upper_bound_idx) = false ↔ _)
    simp
  · show ((0 : Nat) : Int) ≤ ((0 : Nat) : Int)
    omega
  · show ((0 : Nat) : Int) + ((0 : Nat) : Int) ≤ (cs.rowCount : Int) - 1 + 1
    omega
  · intro hlohi
    have hm : cs.keys.countP (fun k => decide (k < lo)) ≤
        cs.keys.countP (fun k => decide (k ≤ hi)) := by
      refine List.countP_mono_left ?_
      intro x _ hx
      simp only [decide_eq_true_eq] at hx ⊢
      omega
    refine ⟨?_, ?_⟩
    · show ((cs.keys.countP (fun k => decide (k < lo)) : Nat) : Int) ≤
        ((cs.keys.countP (fun k => decide (k < lo)) : Nat) : Int)
      omega
    · show ((cs.keys.countP (fun k => decide (k < lo)) : Nat) : Int) +
          ((0 : Nat) : Int) ≤
        ((cs.keys.countP (fun k => decide (k ≤ hi)) : Nat) : Int) - 1 + 1
      omega

/-- Witness for C4 on the freshly initialized sample iterator. -/
theorem iterator_invariant_witness :
    Iterator.Inv sampleIter ∧
      ((sampleIter.lower_bound_idx : Int) ≤ (sampleIter.cur_idx : Int) ∧
        (sampleIter.cur_idx : Int) ≤ sampleIter.upper_bound_idx + 1) := by
  have hi : Iterator.Inv sampleIter := ⟨by decide, by decide⟩
  exact ⟨hi, (iterator_invariant sampleIter 2 0 sampleSet [0] 1 3 hi).1⟩

/-- Protocol steps that never materialize column c leave its read
volume untouched. -/
theorem runOps_io_zero :
    ∀ (ops : List ScanOp) (it : Iterator) (c : Nat),
    ScanOp.materialize c ∉ ops → it.ioReads.getD c 0 = 0 →
    (it.runOps ops).ioReads.getD c 0 = 0 := by
  intro ops
  induction ops with
  | nil => intro it c _ h0; exact h0
  | cons op ops ih =>
    intro it c hnm h0
    have hop : (it.stepOp op).ioReads.getD c 0 = 0 := by
      cases op with
      | prepare n => exact h0
      | materialize c2 =>
        have hne : c2 ≠ c := by
          intro he
          subst he
          exact hnm (List.mem_cons_self _ _)
        show (it.prepareColumn c2).ioReads.getD c 0 = 0
        unfold Iterator.prepareColumn
        split
        · exact h0
        · show (it.ioReads.set c2 _).getD c 0 = 0
          rw [getD_set_ne _ _ _ _ _ hne]
          exact h0
      | finish => exact h0
    exact ih _ c (fun hm => hnm (List.mem_cons_of_mem _ hm)) hop

/-- Claim C5: over any complete scan (any sequence of protocol
operations after Init), a projected column that is never requested via
MaterializeColumn shows zero read volume in GetIOStatistics; its
cursor is never read. -/
theorem lazy_materialization (cs : CFileSet) (pm : List Nat)
    (s : Option (Nat × Nat)) (ops : List ScanOp) (c : Nat)
    (hnm : ScanOp.materialize c ∉ ops) :
    (((cs.mkIter pm).init s).runOps ops).getIOStatistics.getD c 0 = 0 := by
  have h0 : ((cs.mkIter pm).init s).ioReads.getD c 0 = 0 := by
    match s with
    | none => exact getD_replicate_self pm.length c 0
    | some (lo, hi) => exact getD_replicate_self pm.length c 0
  exact runOps_io_zero ops _ c hnm h0

/-- Witness for C5: a scan over the sample rowset that materializes
only column 0 records zero read volume for column 1. -/
theorem lazy_materialization_witness :
    ScanOp.materialize 1 ∉
        [ScanOp.prepare 2, ScanOp.materialize 0, ScanOp.finish,
          ScanOp.prepare 2, ScanOp.materialize 0, ScanOp.finish] ∧
      (((sampleSet.mkIter [0, 1]).init none).runOps
          [ScanOp.prepare 2, ScanOp.materialize 0, ScanOp.finish,
            ScanOp.prepare 2, ScanOp.materialize 0, ScanOp.finish]
        ).getIOStatistics.getD 1 0 = 0 :=
  ⟨by decide, lazy_materialization sampleSet [0, 1] none _ 1 (by decide)⟩

/-- Claim C6: within one batch, a second MaterializeColumn on the same
column yields output identical to the first call and leaves the whole
iterator state, in particular the recorded read volume, unchanged:
each column is read from disk at most once per batch. -/
theorem materialize_idempotent (it : Iterator) (c : Nat)
    (hc : c < it.cols_prepared.length) :
    ((it.materializeColumn c).2.materializeColumn c).1
        = (it.materializeColumn c).1
    ∧ ((it.materializeColumn c).2.materializeColumn c).2
        = (it.materializeColumn c).2
    ∧ ((it.materializeColumn c).2.materializeColumn c).2.ioReads
        = (it.materializeColumn c).2.ioReads := by
  have h2 : ((it.materializeColumn c).2).cols_prepared.getD c false = true := by
    show (it.prepareColumn c).cols_prepared.getD c false = true
    unfold Iterator.prepareColumn
    by_cases hflag : it.cols_prepared.getD c false = true
    · rw [if_pos hflag]
      exact hflag
    · rw [if_neg hflag]
      exact getD_set_self _ _ _ _ hc
  have hprep : ((it.materializeColumn c).2).prepareColumn c
      = (it.materializeColumn c).2 := by
    unfold Iterator.prepareColumn
    rw [if_pos h2]
  refine ⟨?_, ?_, ?_⟩
  · show (((it.materializeColumn c).2).prepareColumn c).staged.getD c []
      = (it.materializeColumn c).1
    rw [hprep]
    rfl
  · show ((it.materializeColumn c).2).prepareColumn c = (it.materializeColumn c).2
    exact hprep
  · show (((it.materializeColumn c).2).prepareColumn c).ioReads
      = (it.materializeColumn c).2.ioReads
    rw [hprep]

/-- Witness for C6 on the sample iterator after preparing a batch of
two rows. -/
theorem materialize_idempotent_witness :
    0 < (sampleIter.prepareBatch 2).2.cols_prepared.length ∧
      (((sampleIter.prepareBatch 2).2.materializeColumn 0).2.materializeColumn 0).1
        = ((sampleIter.prepareBatch 2).2.materializeColumn 0).1 :=
  ⟨by decide,
    (materialize_idempotent (sampleIter.prepareBatch 2).2 0 (by decide)).1⟩

/-- A successful scan of the key column starting at ordinal i found
the probe key among the remaining keys. -/
theorem findRowFrom_mem :
    ∀ (k : Nat) (l : List Nat) (i j : Nat),
    findRowFrom k l i = some j → k ∈ l := by
  intro k l
  induction l with
  | nil => intro i j h; exact absurd h (by simp [findRowFrom])
  | cons x xs ih =>
    intro i j h
    by_cases he : x = k
    · exact he ▸ List.mem_cons_self x xs
    · unfold findRowFrom at h
      rw [if_neg he] at h
      exact List.mem_cons_of_mem _ (ih (i + 1) j h)

/-- Claim C7: CheckRowPresent answers false only when FindRow would
also fail with NotFound (the definitely absent answer of a sound
filter is authoritative), and whenever the filter answers maybe
present, or no filter is loaded, the result equals the definitive
FindRow answer. -/
theorem checkRowPresent_agreement (cs : CFileSet) (k : Nat)
    (hs : cs.bloomSound) :
    (cs.checkRowPresent k = false → cs.findRow k = none)
    ∧ (cs.bloomReader = none →
        cs.checkRowPresent k = (cs.findRow k).isSome)
    ∧ (∀ f, cs.bloomReader = some f → f k = true →
        cs.checkRowPresent k = (cs.findRow k).isSome) := by
  refine ⟨?_, ?_, ?_⟩
  · intro hfalse
    cases hbr : cs.bloomReader with
    | none =>
      simp only [CFileSet.checkRowPresent, hbr] at hfalse
      cases hfr : cs.findRow k with
      | none => rfl
      | some j => rw [hfr] at hfalse; exact absurd hfalse (by simp)
    | some f =>
      by_cases hfk : f k = true
      · simp only [CFileSet.checkRowPresent, hbr, hfk, if_true] at hfalse
        cases hfr : cs.findRow k with
        | none => rfl
        | some j => rw [hfr] at hfalse; exact absurd hfalse (by simp)
      · cases hfr : cs.findRow k with
        | none => rfl
        | some j =>
          have hk : k ∈ cs.keys := findRowFrom_mem k cs.keys 0 j hfr
          exact absurd (hs f hbr k hk) hfk
  · intro hbr
    simp only [CFileSet.checkRowPresent, hbr]
  · intro f hbr hfk
    simp only [CFileSet.checkRowPresent, hbr, hfk, if_true]

/-- Witness for C7 on the filtered rowset: the filter is sound for its
keys, and probing the absent key 6 is answered false by
CheckRowPresent while FindRow reports NotFound. -/
theorem checkRowPresent_agreement_witness :
    bloomSet.bloomSound ∧ bloomSet.checkRowPresent 6 = false ∧
      bloomSet.findRow 6 = none := by
  have hs : bloomSet.bloomSound := by
    intro f hf k hk
    have hfe : f = fun k => decide (k = 5 ∨ k = 7) := (Option.some.inj hf).symm
    subst hfe
    have hk2 : k = 5 ∨ k = 7 := by
      simpa [bloomSet, CFileSet.keys] using hk
    rcases hk2 with h | h <;> subst h <;> rfl
  exact ⟨hs, by decide, (checkRowPresent_agreement bloomSet 6 hs).1 (by decide)⟩

/-- Claim C8: no iterator operation mutates the shared CFileSet base
data; Init, PrepareBatch, MaterializeColumn and FinishBatch leave
base_data untouched, so the base data observed before and after any
operation is identical (HasNext and GetIOStatistics are pure
observations that return no modified state at all, the latter reading
only the iterator local cursors). -/
theorem no_shared_mutation (it : Iterator) (s : Option (Nat × Nat)) (n c : Nat) :
    (it.init s).base_data = it.base_data
    ∧ (it.prepareBatch n).2.base_data = it.base_data
    ∧ (it.materializeColumn c).2.base_data = it.base_data
    ∧ it.finishBatch.base_data = it.base_data := by
  refine ⟨?_, rfl, ?_, rfl⟩
  · match s with
    | none => rfl
    | some (lo, hi) => rfl
  · show (it.prepareColumn c).base_data = it.base_data
    unfold Iterator.prepareColumn
    split
    · rfl
    · rfl

/-- Claim C9: calling HasNext, PrepareBatch, MaterializeColumn or
FinishBatch before Init has completed is a programming error that
fails fast (the DCHECK on initted_), rather than returning data. -/
theorem ops_before_init_fail (it : Iterator) (n c : Nat)
    (h : it.initted = false) :
    it.hasNextChecked = none ∧ it.prepareBatchChecked n = none
    ∧ it.materializeColumnChecked c = none ∧ it.finishBatchChecked = none := by
  unfold Iterator.hasNextChecked Iterator.prepareBatchChecked
    Iterator.materializeColumnChecked Iterator.finishBatchChecked
  rw [h]
  simp

/-- Witness for C9: a freshly constructed, not yet initialized
iterator refuses every protocol operation. -/
theorem ops_before_init_fail_witness :
    (sampleSet.mkIter [0, 1]).initted = false ∧
      (sampleSet.mkIter [0, 1]).hasNextChecked = none ∧
      (sampleSet.mkIter [0, 1]).prepareBatchChecked 2 = none :=
  ⟨rfl, (ops_before_init_fail (sampleSet.mkIter [0, 1]) 2 0 rfl).1,
    (ops_before_init_fail (sampleSet.mkIter [0, 1]) 2 0 rfl).2.1⟩

/-- Claim C10: NewIterator requires an opened CFileSet: the
constructor fetches CountRows and aborts on failure (an unopened set
yields no iterator), and the row_count cached at construction equals
the shared row count and is never changed by any subsequent operation,
even before Init is called. -/
theorem iterator_construction (cs : CFileSet) (pm : List Nat) (n c : Nat) :
    (cs.readers = [] → cs.countRows = Except.error RSError.notOpened
        ∧ cs.newIterator pm = none)
    ∧ (cs.readers ≠ [] →
        cs.newIterator pm = some (cs.mkIter pm)
        ∧ (cs.mkIter pm).row_count = cs.rowCount
        ∧ (cs.mkIter pm).initted = false)
    ∧ (∀ it : Iterator,
        (it.prepareBatch n).2.row_count = it.row_count
        ∧ (it.materializeColumn c).2.row_count = it.row_count
        ∧ it.finishBatch.row_count = it.row_count
        ∧ (∀ s, (it.init s).row_count = it.row_count)) := by
  refine ⟨?_, ?_, ?_⟩
  · intro h
    constructor
    · unfold CFileSet.countRows
      rw [h]
    · unfold CFileSet.newIterator CFileSet.countRows
      rw [h]
  · intro h
    refine ⟨?_, rfl, rfl⟩
    unfold CFileSet.newIterator CFileSet.countRows
    cases hr : cs.readers with
    | nil => exact absurd hr h
    | cons r rs => rfl
  · intro it
    refine ⟨rfl, ?_, rfl, ?_⟩
    · show (it.prepareColumn c).row_count = it.row_count
      unfold Iterator.prepareColumn
      split
      · rfl
      · rfl
    · intro s
      match s with
      | none => rfl
      | some (lo, hi) => rfl

/-- Witness for C10: the unopened set yields no iterator, the opened
sample set yields one whose cached row count is the shared count. -/
theorem iterator_construction_witness :
    emptySet.readers = [] ∧ emptySet.newIterator [0] = none ∧
      sampleSet.readers ≠ [] ∧
      sampleSet.newIterator [0, 1] = some (sampleSet.mkIter [0, 1]) ∧
      (sampleSet.mkIter [0, 1]).row_count = sampleSet.rowCount :=
  ⟨rfl, ((iterator_construction emptySet [0] 1 0).1 rfl).2, by decide,
    ((iterator_construction sampleSet [0, 1] 1 0).2.1 (by decide)).1,
    ((iterator_construction sampleSet [0, 1] 1 0).2.1 (by decide)).2.1⟩

end CFileSetModel
